import Mathlib

/-!
# Verification of the account-isolation / rate-limited access gateway

Shallow embedding of the core components of the repository
(`src/api/rate_limiter.py`, `src/services/account_service.py`,
`src/proxies/proxy_manager.py`, `src/automation/browser/browser_wrapper.py`,
`src/automation/browser/session_manager.py`) together with proofs and
refutations of the specified behavioural properties.

Modelling conventions:
* Python `time.time()` timestamps are rationals (`ℚ`).  Within a single
  call the clock is modelled as constant (Python reads `time.time()`
  several times inside one `acquire`; the reads differ by microseconds and
  may in fact coincide, so the model is an admissible instance of the real
  behaviour).
* Python `int(x)` truncates toward zero; `pyInt` below does the same.
* `collections.deque` is a `List` used at the front (popleft) and the back
  (append).
* Python `dict` is an insertion-ordered association list.
* Exceptions are explicit constructors/`Except` values; a call that blocks
  forever (deadlock on a non-reentrant `threading.Lock`) is the explicit
  outcome `deadlock`.
-/

namespace InstaGateway

/-- Python `int(x)` conversion: truncation toward zero. -/
def pyInt (q : ℚ) : ℤ := if 0 ≤ q then ⌊q⌋ else ⌈q⌉

/-! ## RateLimiter (`src/api/rate_limiter.py`)

State of a `RateLimiter` instance: the two configured capacities and the
two timestamp windows (`hourly_requests`, `minute_requests`).  The
`retry_after_seconds` constructor argument is stored but never read by
`acquire`/`get_wait_time`, so it is omitted from the state. -/
structure RateLimiter where
  requests_per_hour : ℕ
  requests_per_minute : ℕ
  hourly_requests : List ℚ
  minute_requests : List ℚ
deriving Repr, DecidableEq

/-- A freshly constructed limiter: both deques empty
(`RateLimiter.__init__`). -/
def RateLimiter.init (perHour perMinute : ℕ) : RateLimiter :=
  ⟨perHour, perMinute, [], []⟩

/-- The `while deque and now - deque[0] > horizon: deque.popleft()` loop of
`_clean_old_requests`: pop entries from the front while they are strictly
older than the horizon, stopping at the first young-enough entry. -/
def cleanWindow (now horizon : ℚ) : List ℚ → List ℚ
  | [] => []
  | x :: xs => if now - x > horizon then cleanWindow now horizon xs else x :: xs

/-- `RateLimiter._clean_old_requests`: prune both windows
(hour horizon 3600 s, minute horizon 60 s). -/
def RateLimiter.cleanOldRequests (s : RateLimiter) (now : ℚ) : RateLimiter :=
  { s with hourly_requests := cleanWindow now 3600 s.hourly_requests,
           minute_requests := cleanWindow now 60 s.minute_requests }

/-- Observable outcome of one `RateLimiter.acquire` call.
`rateLimitError` is the raised `RateLimitError` carrying its integer
`retry_after`; `deadlock` is the blocking branch, which after sleeping
executes `return self.acquire(wait=False)` while the calling thread still
holds `self.lock` — a non-reentrant `threading.Lock` — so the inner
`with self.lock:` blocks forever; `indexError` is `deque[0]` on an empty
deque (reachable only when a capacity is configured as 0). -/
inductive AcquireOutcome where
  | granted
  | rateLimitError (retry_after : ℤ)
  | deadlock
  | indexError
deriving Repr, DecidableEq

/-- The `if len(self.hourly_requests) >= self.requests_per_hour:` block of
`acquire`, on the already-pruned state: `some out` means the call ends with
outcome `out`, `none` means control falls through to the minute check.
In the blocking branch, `sleep_time > 0` leads to
`time.sleep(sleep_time); return self.acquire(wait=False)`, which deadlocks
re-acquiring the held lock; `sleep_time <= 0` falls through. -/
def hourlyGate (s : RateLimiter) (wait : Bool) (now : ℚ) : Option AcquireOutcome :=
  if s.requests_per_hour ≤ s.hourly_requests.length then
    match s.hourly_requests.head? with
    | none => some .indexError
    | some h0 =>
      if wait then
        if 0 < 3600 - (now - h0) then some .deadlock else none
      else some (.rateLimitError (pyInt (3600 - (now - h0))))
  else none

/-- The `if len(self.minute_requests) >= self.requests_per_minute:` block
of `acquire`, symmetric to `hourlyGate` with horizon 60. -/
def minuteGate (s : RateLimiter) (wait : Bool) (now : ℚ) : Option AcquireOutcome :=
  if s.requests_per_minute ≤ s.minute_requests.length then
    match s.minute_requests.head? with
    | none => some .indexError
    | some m0 =>
      if wait then
        if 0 < 60 - (now - m0) then some .deadlock else none
      else some (.rateLimitError (pyInt (60 - (now - m0))))
  else none

/-- `RateLimiter.acquire(wait)` at clock value `now`.  The whole body runs
under `with self.lock:`, so one call is one atomic step on the state:
prune both windows, run the hourly gate, then the minute gate, and on the
fall-through path record `now` in both windows and grant. -/
def RateLimiter.acquire (s : RateLimiter) (wait : Bool) (now : ℚ) :
    AcquireOutcome × RateLimiter :=
  let sc := s.cleanOldRequests now
  match hourlyGate sc wait now with
  | some out => (out, sc)
  | none =>
    match minuteGate sc wait now with
    | some out => (out, sc)
    | none =>
      (.granted,
       { sc with hourly_requests := sc.hourly_requests ++ [now],
                 minute_requests := sc.minute_requests ++ [now] })

/-- Run a sequence of `acquire` calls (each given as its `wait` flag and
its clock value) against the limiter.  The lock serialises the calls; if a
call deadlocks it never releases the lock, so no later call completes and
the trace ends there.  Returns the list of completed calls (outcome and
timestamp) and the final state. -/
def RateLimiter.runAcquires (s : RateLimiter) :
    List (Bool × ℚ) → List (AcquireOutcome × ℚ) × RateLimiter
  | [] => ([], s)
  | (w, t) :: rest =>
    match s.acquire w t with
    | (.deadlock, s') => ([(.deadlock, t)], s')
    | (out, s') =>
      let (outs, s'') := s'.runAcquires rest
      ((out, t) :: outs, s'')

/-- Timestamps of the granted calls in a trace of outcomes. -/
def grantedTimes (outs : List (AcquireOutcome × ℚ)) : List ℚ :=
  (outs.filter (fun p => p.1 = .granted)).map Prod.snd

/-- Membership of a timestamp in the trailing 60-second window ending
anywhere in `[w, w + 60]`. -/
def inWindow (w g : ℚ) : Bool := decide (w ≤ g ∧ g ≤ w + 60)



/-! ## Python dictionaries as insertion-ordered association lists -/

/-- `d[k] = v` on an insertion-ordered Python dict: overwrite in place if
the key is present, else append at the end. -/
def dictInsert {α : Type} (k : String) (v : α) : List (String × α) → List (String × α)
  | [] => [(k, v)]
  | (k', v') :: rest =>
    if k' = k then (k, v) :: rest else (k', v') :: dictInsert k v rest

/-- `d.pop(k, None)`: remove the binding of `k` if present. -/
def dictPop {α : Type} (k : String) (l : List (String × α)) : List (String × α) :=
  l.eraseP (fun p => p.1 = k)

/-- `d.get(k)` / `d[k]` lookup. -/
def dictGet? {α : Type} (k : String) (l : List (String × α)) : Option α :=
  (l.find? (fun p => p.1 = k)).map Prod.snd

/-- `k in d`. -/
def dictContains {α : Type} (k : String) (l : List (String × α)) : Bool :=
  (dictGet? k l).isSome

/-! ## AccountService (`src/services/account_service.py`)

The registry state: Python dicts `self.accounts`, `self.clients`,
`self.posting_clients`.  `InstagramClient` construction is network-backed
code outside this module; each constructor call is modelled by the
`Except` value it produces (a client, or the exception it raises), passed
in as an argument.  All structural operations run under `self.lock`, so
each is one atomic step on the state. -/

/-- The fields of a `models.account.Account` that `account_service.py`
reads: the key and the credential passed to client construction
(`username` is only logged). -/
structure Account where
  account_id : String
  access_token : String
  username : String
deriving Repr, DecidableEq

/-- Opaque handle standing for a constructed `InstagramClient`. -/
structure InstagramClient where
  handle : ℕ
deriving Repr, DecidableEq

/-- `AccountError` is the only exception type raised by the registry
operations modelled here. -/
inductive SvcError where
  | accountError (msg : String)
deriving Repr, DecidableEq

structure AccountService where
  accounts : List (String × Account)
  clients : List (String × InstagramClient)
  posting_clients : List (String × InstagramClient)
deriving Repr, DecidableEq

/-- `AccountService.get_client`: `AccountError` if the key is absent from
`self.clients`, otherwise the stored client. -/
def AccountService.get_client (svc : AccountService) (account_id : String) :
    Except SvcError InstagramClient :=
  match dictGet? account_id svc.clients with
  | none => .error (.accountError ("Account not found: " ++ account_id))
  | some c => .ok c

/-- `AccountService.get_posting_client`, same shape over
`self.posting_clients`. -/
def AccountService.get_posting_client (svc : AccountService) (account_id : String) :
    Except SvcError InstagramClient :=
  match dictGet? account_id svc.posting_clients with
  | none => .error (.accountError ("Account not found: " ++ account_id))
  | some c => .ok c

/-- `AccountService.add_account`.  `mon` and `post` are the outcomes of the
two `InstagramClient(...)` constructor calls (monitoring client first,
posting client second).  Mirrors the source line by line: insert into
`self.accounts`; build the monitoring client and insert it into
`self.clients`; build the posting client and insert it into
`self.posting_clients`; on any constructor exception the handler pops the
key from `self.accounts` only and raises `AccountError`. -/
def AccountService.add_account (svc : AccountService) (account : Account)
    (mon post : Except String InstagramClient) :
    Except SvcError Unit × AccountService :=
  if dictContains account.account_id svc.accounts then
    (.error (.accountError ("Account already exists: " ++ account.account_id)), svc)
  else
    let s1 := { svc with accounts := dictInsert account.account_id account svc.accounts }
    match mon with
    | .error e =>
      (.error (.accountError ("Failed to add account " ++ account.account_id ++ ": " ++ e)),
       { s1 with accounts := dictPop account.account_id s1.accounts })
    | .ok client =>
      let s2 := { s1 with clients := dictInsert account.account_id client s1.clients }
      match post with
      | .error e =>
        (.error (.accountError ("Failed to add account " ++ account.account_id ++ ": " ++ e)),
         { s2 with accounts := dictPop account.account_id s2.accounts })
      | .ok posting_client =>
        (.ok (),
         { s2 with posting_clients := dictInsert account.account_id posting_client s2.posting_clients })

/-- `AccountService.remove_account`. -/
def AccountService.remove_account (svc : AccountService) (account_id : String) :
    Except SvcError Unit × AccountService :=
  if dictContains account_id svc.accounts then
    (.ok (),
     { accounts := dictPop account_id svc.accounts,
       clients := dictPop account_id svc.clients,
       posting_clients := dictPop account_id svc.posting_clients })
  else
    (.error (.accountError ("Account not found: " ++ account_id)), svc)

/-- `AccountService.update_account`: overwrite `self.accounts[id]`, pop
both old clients, then build and insert the new monitoring and posting
clients; a constructor exception is turned into `AccountError` with no
rollback of any of the preceding mutations. -/
def AccountService.update_account (svc : AccountService) (account : Account)
    (mon post : Except String InstagramClient) :
    Except SvcError Unit × AccountService :=
  if dictContains account.account_id svc.accounts then
    let s1 := { svc with accounts := dictInsert account.account_id account svc.accounts }
    let s2 := { s1 with clients := dictPop account.account_id s1.clients,
                        posting_clients := dictPop account.account_id s1.posting_clients }
    match mon with
    | .error e =>
      (.error (.accountError ("Failed to update account " ++ account.account_id ++ ": " ++ e)), s2)
    | .ok client =>
      let s3 := { s2 with clients := dictInsert account.account_id client s2.clients }
      match post with
      | .error e =>
        (.error (.accountError ("Failed to update account " ++ account.account_id ++ ": " ++ e)), s3)
      | .ok posting_client =>
        (.ok (),
         { s3 with posting_clients := dictInsert account.account_id posting_client s3.posting_clients })
  else
    (.error (.accountError ("Account not found: " ++ account.account_id)), svc)

/-! ## Retry-exhaustion normalization
(`AccountService.verify_account` / `AccountService.verify_all_accounts`)

The `except RetryError` handlers of the two methods.  The underlying
exception of the last attempt (`e.last_attempt.exception()`) is either an
`InstagramAPIError` — carrying optional upstream `error_code` /
`error_subcode` attributes — or some other exception.  `utils/exceptions.py`
is not part of the source tree; `InstagramAPIError` is modelled from the
spec ("TransientUpstreamError / PermanentUpstreamError … carrying upstream
code/subcode when known") as an exception value whose `str()` is its
diagnostic text. -/

/-- The last attempt's exception as seen by the `RetryError` handlers. -/
inductive UnderlyingExc where
  | igApi (msg : String) (error_code error_subcode : Option ℤ)
  | other (msg : String)
deriving Repr, DecidableEq

/-- Python `str(e)` of the underlying exception. -/
def UnderlyingExc.toStr : UnderlyingExc → String
  | .igApi m _ _ => m
  | .other m => m

/-- Python truthiness of `error_code` in `if error_code:`: false for
`None` and for `0`. -/
def pyTruthy : Option ℤ → Bool
  | none => false
  | some n => decide (n ≠ 0)

/-- Python f-string rendering of an optional integer attribute
(`None` prints as `None`). -/
def pyFormatOptInt : Option ℤ → String
  | none => "None"
  | some n => toString n

/-- The `except RetryError` normalization in `verify_account`
(lines 175–201): start from `str(RetryError)`; if a last-attempt exception
could be extracted, use its text, and when it is an `InstagramAPIError`
with truthy `error_code`, append `" (code: {error_code}, subcode:
{error_subcode})"`.  `last = none` covers both a missing/`None`
`last_attempt` and a failing extraction (the inner `except: pass`). -/
def normalizeVerifyAccount (retryMsg : String) (last : Option UnderlyingExc) : String :=
  match last with
  | none => retryMsg
  | some u =>
    match u with
    | .igApi m code subcode =>
      if pyTruthy code then
        m ++ " (code: " ++ pyFormatOptInt code ++ ", subcode: " ++ pyFormatOptInt subcode ++ ")"
      else m
    | .other m => m

/-- The surfaced error of `verify_account` on retry exhaustion:
`AccountError(f"Account verification failed: {error_msg}")`. -/
def verifyAccountError (retryMsg : String) (last : Option UnderlyingExc) : String :=
  "Account verification failed: " ++ normalizeVerifyAccount retryMsg last

/-- The `except RetryError` normalization in `verify_all_accounts`
(lines 211–250): identical except that the appended suffix is
`" (code: {error_code})"` — no subcode. -/
def normalizeVerifyAll (retryMsg : String) (last : Option UnderlyingExc) : String :=
  match last with
  | none => retryMsg
  | some u =>
    match u with
    | .igApi m code _ =>
      if pyTruthy code then m ++ " (code: " ++ pyFormatOptInt code ++ ")" else m
    | .other m => m

/-- `v` is exposed by the diagnostic string `s` when it occurs in `s` as a
contiguous substring. -/
def exposes (v s : String) : Prop := v.data <:+: s.data

instance (v s : String) : Decidable (exposes v s) :=
  inferInstanceAs (Decidable (v.data <:+: s.data))

/-! ## ProxyManager (`src/proxies/proxy_manager.py`)

The proxy configuration of an account (`account.proxy`).  Modelled from
the spec: `models/account.py` (the `ProxyConfig` value with its `enabled`
flag and `proxy_url` connection string, §3 "proxy configuration (enabled
flag + connection string)") is not part of the source tree; `proxy_url`
is an optional string, falsy when `None` or empty. -/
structure ProxyConfig where
  enabled : Bool
  proxy_url : Option String
deriving Repr, DecidableEq

/-- The fields of an account that `proxy_manager.py` reads. -/
structure ProxyAccount where
  account_id : String
  proxy : ProxyConfig
deriving Repr, DecidableEq

/-- `ProxyError` raised by `get_proxy_url` for an unknown account. -/
inductive ProxyErr where
  | proxyError (msg : String)
deriving Repr, DecidableEq

/-- `ProxyManager` state: the account map and the `proxy_cache` dict.
The timeout/retry/SSL settings do not affect the control flow modelled
here. -/
structure ProxyManager where
  accounts : List (String × ProxyAccount)
  proxy_cache : List (String × String)
deriving Repr, DecidableEq

/-- Python truthiness of the `proxy_url` string (`if proxy_url:`). -/
def strTruthy : Option String → Bool
  | none => false
  | some s => decide (s ≠ "")

/-- `ProxyManager.get_proxy_url`: raise for an unknown account; `None`
when the proxy is disabled; otherwise the cached URL, or the account's
`proxy_url` (cached when truthy). -/
def ProxyManager.get_proxy_url (pm : ProxyManager) (account_id : String) :
    Except ProxyErr (Option String) × ProxyManager :=
  match dictGet? account_id pm.accounts with
  | none => (.error (.proxyError ("Account not found: " ++ account_id)), pm)
  | some account =>
    if !account.proxy.enabled then (.ok none, pm)
    else
      match dictGet? account_id pm.proxy_cache with
      | some url => (.ok (some url), pm)
      | none =>
        let proxy_url := account.proxy.proxy_url
        if strTruthy proxy_url then
          (.ok proxy_url,
           { pm with proxy_cache := dictInsert account_id (proxy_url.getD "") pm.proxy_cache })
        else (.ok proxy_url, pm)

/-- Outcome of the `requests.get` probe (plus `raise_for_status` and the
response handling inside the `try` block): success, or any raised
exception with its text. -/
inductive ProbeResult where
  | ok
  | exn (msg : String)
deriving Repr, DecidableEq

/-- `ProxyManager.verify_proxy`.  `probe url` is the outcome of the
connectivity test through proxy `url`.  The call to `get_proxy_url` is
outside the `try` block, so its `ProxyError` propagates; a falsy URL
returns `True` without probing; otherwise any exception in the `try`
block yields `False`.  The third component lists the URLs actually
probed. -/
def ProxyManager.verify_proxy (pm : ProxyManager) (probe : String → ProbeResult)
    (account_id : String) :
    Except ProxyErr Bool × ProxyManager × List String :=
  match pm.get_proxy_url account_id with
  | (.error e, pm') => (.error e, pm', [])
  | (.ok proxy_url, pm') =>
    if strTruthy proxy_url then
      let url := proxy_url.getD ""
      match probe url with
      | .ok => (.ok true, pm', [url])
      | .exn _ => (.ok false, pm', [url])
    else (.ok true, pm', [])

/-- `ProxyManager.verify_all_proxies`: iterate over
`self.accounts.keys()` in order, storing `verify_proxy`'s result per
account; a raised `ProxyError` would abort the whole batch (modelled by
the `Except` short-circuit). -/
def verifyAllLoop (probe : String → ProbeResult) (pm : ProxyManager) :
    List String → Except ProxyErr (List (String × Bool) × ProxyManager)
  | [] => .ok ([], pm)
  | account_id :: rest =>
    match pm.verify_proxy probe account_id with
    | (.error e, _, _) => .error e
    | (.ok b, pm', _) =>
      match verifyAllLoop probe pm' rest with
      | .error e => .error e
      | .ok (results, pm'') => .ok ((account_id, b) :: results, pm'')

/-- `ProxyManager.verify_all_proxies` entry point. -/
def ProxyManager.verify_all_proxies (pm : ProxyManager) (probe : String → ProbeResult) :
    Except ProxyErr (List (String × Bool) × ProxyManager) :=
  verifyAllLoop probe pm (pm.accounts.map Prod.fst)

/-! ## AutomationBridge thread-local event loop
(`src/automation/browser/browser_wrapper.py`)

Per-thread state machine over `_thread_local.loop`.  An event loop is its
closed flag plus the set of its pending (not yet done) tasks, identified
by opaque ids.  `none` for the handle covers both a missing `loop`
attribute and `loop is None`.  The trailing `asyncio.set_event_loop(None)`
touches only asyncio's own thread-local, which neither of these functions
reads, so it has no observable effect here. -/

structure EventLoop where
  closed : Bool
  pending : List ℕ
deriving Repr, DecidableEq

structure ThreadLocalState where
  loop : Option EventLoop
deriving Repr, DecidableEq

/-- `_get_thread_loop`: reuse the thread's loop unless the handle is
absent/`None` or the loop is closed, in which case create a fresh loop
(no tasks, open) and store it. -/
def getThreadLoop (ts : ThreadLocalState) : EventLoop × ThreadLocalState :=
  match ts.loop with
  | some l => if l.closed then (⟨false, []⟩, ⟨some ⟨false, []⟩⟩) else (l, ts)
  | none => (⟨false, []⟩, ⟨some ⟨false, []⟩⟩)

/-- What `_close_thread_loop` did: which tasks it cancelled-and-awaited
(via `gather(*pending, return_exceptions=True)`, which swallows the
cancellation errors, inside `try: … except Exception: pass`), and whether
it called `loop.close()`. -/
structure TeardownReport where
  cancelled : List ℕ
  closedLoop : Bool
deriving Repr, DecidableEq

/-- `_close_thread_loop`: when the handle holds an open loop, cancel all
its pending tasks, await their cancellation with errors suppressed, close
the loop and clear the handle (`_thread_local.loop = None`); otherwise do
nothing (a handle left pointing at an already-closed loop is kept). -/
def closeThreadLoop (ts : ThreadLocalState) : TeardownReport × ThreadLocalState :=
  match ts.loop with
  | some l =>
    if l.closed then (⟨[], false⟩, ts)
    else (⟨l.pending, true⟩, ⟨none⟩)
  | none => (⟨[], false⟩, ts)

/-! ## BrowserSessionManager.save_session
(`src/automation/browser/session_manager.py`)

`save_session(account_id, page)` reads the page's cookies and writes them
to the per-account session file.  The cookie read
(`await page.context.cookies()`) and the file write
(`open(...,"w")` + `json.dump`) are external effects, modelled by the
`Except` values they produce; the session store is the keyed file store.
The function's own raise-or-return behaviour is the `Except` in the first
component. -/
def save_session (playwright_available : Bool) (account_id : String)
    (cookies : Except String (List ℕ))
    (write : List ℕ → Except String Unit)
    (store : List (String × List ℕ)) :
    Except String Unit × List (String × List ℕ) :=
  if playwright_available then
    match cookies with
    | .error _ => (.ok (), store)
    | .ok cs =>
      match write cs with
      | .error _ => (.ok (), store)
      | .ok _ => (.ok (), dictInsert account_id cs store)
  else (.ok (), store)

/-! ## Window-pruning lemmas -/

theorem cleanWindow_eq_filter (now h : ℚ) :
    ∀ l : List ℚ, List.Sorted (· ≤ ·) l →
      cleanWindow now h l = l.filter (fun x => decide (now - x ≤ h)) := by
  intro l hl
  induction l with
  | nil => rfl
  | cons x xs ih =>
    rw [List.sorted_cons] at hl
    by_cases hx : now - x > h
    · rw [cleanWindow, if_pos hx, List.filter_cons_of_neg (by simpa using not_le.mpr hx)]
      exact ih hl.2
    · rw [cleanWindow, if_neg hx, List.filter_cons_of_pos (by simpa using not_lt.mp hx)]
      have : xs.filter (fun x => decide (now - x ≤ h)) = xs := by
        rw [List.filter_eq_self]
        intro a ha
        have hxa : x ≤ a := hl.1 a ha
        simp only [decide_eq_true_eq]
        have := not_lt.mp hx
        linarith
      rw [this]

theorem cleanWindow_sublist (now h : ℚ) (l : List ℚ) :
    (cleanWindow now h l).Sublist l := by
  induction l with
  | nil => exact List.Sublist.refl _
  | cons x xs ih =>
    rw [cleanWindow]
    split
    · exact ih.trans (List.sublist_cons_self x xs)
    · exact List.Sublist.refl _

theorem cleanWindow_sorted (now h : ℚ) (l : List ℚ)
    (hl : List.Sorted (· ≤ ·) l) :
    List.Sorted (· ≤ ·) (cleanWindow now h l) :=
  hl.sublist (cleanWindow_sublist now h l)

theorem cleanWindow_cleanWindow (t1 t2 h : ℚ) (ht : t1 ≤ t2)
    (l : List ℚ) (hl : List.Sorted (· ≤ ·) l) :
    cleanWindow t2 h (cleanWindow t1 h l) = cleanWindow t2 h l := by
  rw [cleanWindow_eq_filter t1 h l hl,
      cleanWindow_eq_filter t2 h _ (by
        rw [← cleanWindow_eq_filter t1 h l hl]
        exact cleanWindow_sorted t1 h l hl),
      cleanWindow_eq_filter t2 h l hl, List.filter_filter]
  apply List.filter_congr
  intro x _
  by_cases h2 : t2 - x ≤ h
  · have h1 : t1 - x ≤ h := by linarith
    simp [h1, h2]
  · simp [h2]

theorem cleanWindow_append_singleton (t h : ℚ) (hh : 0 ≤ h) :
    ∀ l : List ℚ, cleanWindow t h (l ++ [t]) = cleanWindow t h l ++ [t] := by
  intro l
  induction l with
  | nil =>
    simp only [List.nil_append, cleanWindow]
    rw [if_neg (by simp; linarith)]
  | cons x xs ih =>
    simp only [List.cons_append, cleanWindow]
    split
    · exact ih
    · rfl

theorem length_filter_mono {α : Type} (p q : α → Bool) :
    ∀ l : List α, (∀ x ∈ l, p x = true → q x = true) →
      (l.filter p).length ≤ (l.filter q).length := by
  intro l
  induction l with
  | nil => intro _; simp
  | cons x xs ih =>
    intro hpq
    have hxs : ∀ y ∈ xs, p y = true → q y = true :=
      fun y hy => hpq y (List.mem_cons_of_mem x hy)
    by_cases hp : p x = true
    · rw [List.filter_cons_of_pos hp, List.filter_cons_of_pos (hpq x (List.mem_cons_self x xs) hp)]
      simpa using ih hxs
    · rw [List.filter_cons_of_neg (by simpa using hp)]
      exact (ih hxs).trans
        (List.Sublist.length_le (List.Sublist.filter q (List.sublist_cons_self x xs)))

/-! ## Claim theorems -/

/-- **C1**: refuting evaluation on the code.  With `requests_per_minute = 1`
(hourly capacity 200, not binding), the call sequence `acquire(False)` at
`t = 0` followed by `acquire(True)` twice at `t = 60` completes with all
three calls granted: at the exact expiry boundary the blocking branch
computes `sleep_time = 0`, the `if sleep_time > 0` guard fails, and
control falls through to record-and-grant even though the pruned minute
window is still at capacity (non-blocking mode would deny here with
`retry_after = 0`).  The granted timestamps are `0, 60, 60`: the trailing
60-second window `[0, 60]` holds 3 > m = 1 of them, and the two grants at
`t = 60` are 0 seconds apart, so under any convention for a trailing
60-second window more than `m` granted timestamps share one window. -/
theorem acquire_minute_window_overshoot_at_boundary :
    grantedTimes ((RateLimiter.init 200 1).runAcquires
        [(false, 0), (true, 60), (true, 60)]).1 = [0, 60, 60] ∧
    ((grantedTimes ((RateLimiter.init 200 1).runAcquires
        [(false, 0), (true, 60), (true, 60)]).1).filter (inWindow 0)).length = 3 := by
  constructor <;>
    norm_num [RateLimiter.init, RateLimiter.acquire, RateLimiter.cleanOldRequests, cleanWindow,
      hourlyGate, minuteGate, RateLimiter.runAcquires, grantedTimes, inWindow]

/-- **C2**: refuting evaluation on the code.  With `requests_per_minute = 1`
and one grant recorded at `t = 0`, a blocking `acquire` at `t = 1` reaches
the saturated minute branch with `sleep_time = 59 > 0`, sleeps, and then
executes `return self.acquire(wait=False)` while the calling thread still
holds `self.lock` — a non-reentrant `threading.Lock` — so the inner
`with self.lock:` blocks forever: the call deadlocks instead of retrying
iteratively and returning within the window's horizon. -/
theorem blocking_acquire_deadlocks_on_saturated_window :
    ((RateLimiter.init 200 1).acquire false 0).1 = .granted ∧
    (((RateLimiter.init 200 1).acquire false 0).2.acquire true 1).1 = .deadlock := by
  constructor <;>
    norm_num [RateLimiter.init, RateLimiter.acquire, RateLimiter.cleanOldRequests, cleanWindow,
      hourlyGate, minuteGate]

/-- **C3**: refuting evaluation on the code.  Starting from an empty
registry, `add_account` for fresh account `"X"` whose monitoring client
constructs but whose posting client constructor raises surfaces an
`AccountError`, yet the exception handler pops only `self.accounts`: the
final state still maps `"X"` in `self.clients`, so a subsequent
`get_client("X")` succeeds instead of failing with the not-found error,
and the registry is not restored to its pre-call state. -/
theorem add_account_posting_failure_leaves_partial_state :
    (AccountService.add_account ⟨[], [], []⟩ ⟨"X", "tok", "userX"⟩
        (.ok ⟨1⟩) (.error "boom")).1
      = .error (.accountError "Failed to add account X: boom") ∧
    (AccountService.add_account ⟨[], [], []⟩ ⟨"X", "tok", "userX"⟩
        (.ok ⟨1⟩) (.error "boom")).2
      = ⟨[], [("X", ⟨1⟩)], []⟩ ∧
    (AccountService.add_account ⟨[], [], []⟩ ⟨"X", "tok", "userX"⟩
        (.ok ⟨1⟩) (.error "boom")).2.get_client "X" = .ok ⟨1⟩ := by
  refine ⟨rfl, rfl, rfl⟩

/-- **C4**: refuting evaluation on the code.  For a registry holding
account `"X"` with a full client pair, `update_account` overwrites
`self.accounts["X"]` with the new value and pops both clients *before*
constructing the replacements; when the monitoring client constructor
raises, the surfaced `AccountError` leaves the registry with the new
account value and no clients at all: `get_client("X")` and
`get_posting_client("X")` now fail not-found, so the state is neither the
pre-call state nor a swapped-in new pair. -/
theorem update_account_failure_mutates_state :
    (AccountService.update_account ⟨[("X", ⟨"X", "oldtok", "u"⟩)], [("X", ⟨1⟩)], [("X", ⟨2⟩)]⟩
        ⟨"X", "newtok", "u"⟩ (.error "boom") (.ok ⟨3⟩)).1
      = .error (.accountError "Failed to update account X: boom") ∧
    (AccountService.update_account ⟨[("X", ⟨"X", "oldtok", "u"⟩)], [("X", ⟨1⟩)], [("X", ⟨2⟩)]⟩
        ⟨"X", "newtok", "u"⟩ (.error "boom") (.ok ⟨3⟩)).2
      = ⟨[("X", ⟨"X", "newtok", "u"⟩)], [], []⟩ ∧
    (AccountService.update_account ⟨[("X", ⟨"X", "oldtok", "u"⟩)], [("X", ⟨1⟩)], [("X", ⟨2⟩)]⟩
        ⟨"X", "newtok", "u"⟩ (.error "boom") (.ok ⟨3⟩)).2.get_client "X"
      = .error (.accountError "Account not found: X") ∧
    (AccountService.update_account ⟨[("X", ⟨"X", "oldtok", "u"⟩)], [("X", ⟨1⟩)], [("X", ⟨2⟩)]⟩
        ⟨"X", "newtok", "u"⟩ (.error "boom") (.ok ⟨3⟩)).2.get_posting_client "X"
      = .error (.accountError "Account not found: X") := by
  refine ⟨rfl, rfl, rfl, rfl⟩

/-- **C8**: tearing down the thread's automation loop while it is open
cancels exactly the pending tasks (awaiting them with the cancellation
errors suppressed), closes the loop, and clears the thread-local handle;
a subsequent `run` on the same thread then finds no open loop and creates
a fresh one whose pending-task set is empty. -/
theorem teardown_clears_loop_and_next_run_is_fresh
    (ts : ThreadLocalState) (l : EventLoop)
    (hl : ts.loop = some l) (hopen : l.closed = false) :
    (closeThreadLoop ts).1 = ⟨l.pending, true⟩ ∧
    (closeThreadLoop ts).2.loop = none ∧
    (getThreadLoop (closeThreadLoop ts).2).1 = ⟨false, []⟩ ∧
    (getThreadLoop (closeThreadLoop ts).2).2.loop = some ⟨false, []⟩ := by
  simp [closeThreadLoop, getThreadLoop, hl, hopen]

/-- Witness for **C8** at the concrete state of a thread whose open loop
has one pending task. -/
theorem teardown_clears_loop_and_next_run_is_fresh_witness :
    (closeThreadLoop ⟨some ⟨false, [7]⟩⟩).1 = ⟨[7], true⟩ ∧
    (closeThreadLoop ⟨some ⟨false, [7]⟩⟩).2.loop = none ∧
    (getThreadLoop (closeThreadLoop ⟨some ⟨false, [7]⟩⟩).2).1 = ⟨false, []⟩ ∧
    (getThreadLoop (closeThreadLoop ⟨some ⟨false, [7]⟩⟩).2).2.loop = some ⟨false, []⟩ :=
  teardown_clears_loop_and_next_run_is_fresh ⟨some ⟨false, [7]⟩⟩ ⟨false, [7]⟩ rfl rfl

/-- **C9**: for a registered account whose proxy configuration is
disabled, `get_proxy_url` returns `None` (without touching the cache) and
`verify_proxy` returns `True` with an empty list of probed URLs — the
connectivity probe is never performed and the disabled proxy is reported
as working. -/
theorem disabled_proxy_reported_working
    (pm : ProxyManager) (probe : String → ProbeResult)
    (account_id : String) (acc : ProxyAccount)
    (hacc : dictGet? account_id pm.accounts = some acc)
    (hdis : acc.proxy.enabled = false) :
    pm.get_proxy_url account_id = (.ok none, pm) ∧
    pm.verify_proxy probe account_id = (.ok true, pm, []) := by
  have h1 : pm.get_proxy_url account_id = (.ok none, pm) := by
    unfold ProxyManager.get_proxy_url
    rw [hacc]
    simp [hdis]
  refine ⟨h1, ?_⟩
  unfold ProxyManager.verify_proxy
  rw [h1]
  simp [strTruthy]

/-- Witness for **C9** at a one-account registry with a disabled proxy. -/
theorem disabled_proxy_reported_working_witness :
    dictGet? "A" (ProxyManager.mk [("A", ⟨"A", ⟨false, some "http://u:p@h:1"⟩⟩)] []).accounts
      = some ⟨"A", ⟨false, some "http://u:p@h:1"⟩⟩ ∧
    (ProxyManager.mk [("A", ⟨"A", ⟨false, some "http://u:p@h:1"⟩⟩)] []).verify_proxy
        (fun _ => .exn "unreachable") "A"
      = (.ok true, ProxyManager.mk [("A", ⟨"A", ⟨false, some "http://u:p@h:1"⟩⟩)] [], []) :=
  ⟨rfl,
   (disabled_proxy_reported_working
      (ProxyManager.mk [("A", ⟨"A", ⟨false, some "http://u:p@h:1"⟩⟩)] [])
      (fun _ => .exn "unreachable") "A" ⟨"A", ⟨false, some "http://u:p@h:1"⟩⟩ rfl rfl).2⟩

/-- **C10**: `save_session` never raises: whatever the cookie read, the
file write, the availability flag and the prior store contents, the call
returns `()` rather than propagating an error, so a failed persist is
indistinguishable from a successful one by the call's result (the failure
is only logged). -/
theorem save_session_never_raises (playwright_available : Bool) (account_id : String)
    (cookies : Except String (List ℕ)) (write : List ℕ → Except String Unit)
    (store : List (String × List ℕ)) :
    (save_session playwright_available account_id cookies write store).1 = .ok () := by
  unfold save_session
  rcases playwright_available with _ | _
  · rfl
  · rcases cookies with e | cs
    · rfl
    · rcases hw : write cs with e | u <;> simp [hw]

/-- **C5**: with `requests_per_minute = 2` and a non-binding hourly
capacity, three non-blocking `acquire` calls in quick succession from an
empty limiter grant the first two and deny the third with a raised
`RateLimitError` whose integer `retry_after` satisfies
`0 < retry_after ≤ 60`. -/
theorem three_nonblocking_acquires_third_denied (H : ℕ) (t1 t2 t3 : ℚ)
    (hH : 3 ≤ H) (h12 : t1 ≤ t2) (h23 : t2 ≤ t3) (hq : t3 - t1 < 1) :
    ∃ retry_after : ℤ,
      (((RateLimiter.init H 2).runAcquires [(false, t1), (false, t2), (false, t3)]).1).map
          Prod.fst
        = [.granted, .granted, .rateLimitError retry_after] ∧
      0 < retry_after ∧ retry_after ≤ 60 := by
  have hH0 : ¬ (H ≤ 0) := by omega
  have hH1 : ¬ (H ≤ 1) := by omega
  have hH2 : ¬ (H ≤ 2) := by omega
  have c1 : ¬ (t2 - t1 > 3600) := by linarith
  have c2 : ¬ (t2 - t1 > 60) := by linarith
  have d1 : ¬ (t3 - t1 > 3600) := by linarith
  have d2 : ¬ (t3 - t1 > 60) := by linarith
  have e1 : (RateLimiter.init H 2).acquire false t1 = (.granted, ⟨H, 2, [t1], [t1]⟩) := by
    simp [RateLimiter.init, RateLimiter.acquire, RateLimiter.cleanOldRequests, cleanWindow,
      hourlyGate, minuteGate, hH0]
  have e2 : (RateLimiter.mk H 2 [t1] [t1]).acquire false t2
      = (.granted, ⟨H, 2, [t1, t2], [t1, t2]⟩) := by
    simp [RateLimiter.acquire, RateLimiter.cleanOldRequests, cleanWindow,
      hourlyGate, minuteGate, c1, c2, hH1]
  have e3 : (RateLimiter.mk H 2 [t1, t2] [t1, t2]).acquire false t3
      = (.rateLimitError (pyInt (60 - (t3 - t1))), ⟨H, 2, [t1, t2], [t1, t2]⟩) := by
    simp [RateLimiter.acquire, RateLimiter.cleanOldRequests, cleanWindow,
      hourlyGate, minuteGate, d1, d2, hH2]
  have hge : (0:ℚ) ≤ 60 - (t3 - t1) := by linarith
  refine ⟨pyInt (60 - (t3 - t1)), ?_, ?_, ?_⟩
  · simp [RateLimiter.runAcquires, e1, e2, e3]
  · unfold pyInt
    rw [if_pos hge]
    have h1 : ((1:ℤ):ℚ) ≤ 60 - (t3 - t1) := by push_cast; linarith
    have := Int.le_floor.mpr h1
    omega
  · unfold pyInt
    rw [if_pos hge]
    calc ⌊60 - (t3 - t1)⌋ ≤ ⌊((60:ℤ):ℚ)⌋ := Int.floor_le_floor (by push_cast; linarith)
    _ = 60 := Int.floor_intCast 60

/-- Witness for **C5**: the three calls at the concrete times
`t1 = t2 = t3 = 0` against a limiter with hourly capacity 3. -/
theorem three_nonblocking_acquires_third_denied_witness :
    3 ≤ 3 ∧ (0:ℚ) ≤ 0 ∧ (0:ℚ) - 0 < 1 ∧
    ∃ retry_after : ℤ,
      (((RateLimiter.init 3 2).runAcquires [(false, 0), (false, 0), (false, 0)]).1).map
          Prod.fst
        = [.granted, .granted, .rateLimitError retry_after] ∧
      0 < retry_after ∧ retry_after ≤ 60 :=
  ⟨le_rfl, le_rfl, by norm_num,
   three_nonblocking_acquires_third_denied 3 0 0 0 le_rfl le_rfl le_rfl (by norm_num)⟩

/-- **C6** counterexample: the `except RetryError` normalization inside
`verify_all_accounts` appends only `" (code: {error_code})"`.  For a
last-attempt `InstagramAPIError` carrying `code = 190, subcode = 460`,
that path's normalized message exposes `190` but not `460`: on this
normalization code path the subcode is silently dropped, refuting the
claim's "in every code path that performs this normalization". -/
theorem verify_all_normalization_drops_subcode :
    normalizeVerifyAll "RetryError[<Future at 0x7f state=finished raised InstagramAPIError>]"
        (some (.igApi "Invalid OAuth access token." (some 190) (some 460)))
      = "Invalid OAuth access token. (code: 190)" ∧
    exposes "190" "Invalid OAuth access token. (code: 190)" ∧
    ¬ exposes "460" "Invalid OAuth access token. (code: 190)" :=
  ⟨rfl, by decide, by decide⟩

/-- **C6** amended: `verify_account`'s retry-exhaustion normalization —
the path every remote failure actually takes, `verify_all_accounts`
reaching failures only through `verify_account` — surfaces an
`AccountError` whose message exposes the last attempt's original
diagnostic text together with the upstream code and subcode whenever the
code is truthy; `verify_all_accounts`' own (unreachable) `RetryError`
handler exposes the code but not the subcode. -/
theorem verify_account_normalization_exposes (retryMsg m : String) (c sc : ℤ)
    (hc : c ≠ 0) :
    exposes m (verifyAccountError retryMsg (some (.igApi m (some c) (some sc)))) ∧
    exposes (toString c) (verifyAccountError retryMsg (some (.igApi m (some c) (some sc)))) ∧
    exposes (toString sc) (verifyAccountError retryMsg (some (.igApi m (some c) (some sc)))) ∧
    exposes (toString c) (normalizeVerifyAll retryMsg (some (.igApi m (some c) (some sc)))) := by
  have hnorm : verifyAccountError retryMsg (some (.igApi m (some c) (some sc)))
      = "Account verification failed: "
          ++ (m ++ " (code: " ++ toString c ++ ", subcode: " ++ toString sc ++ ")") := by
    simp [verifyAccountError, normalizeVerifyAccount, pyTruthy, pyFormatOptInt, hc]
  have hnorm2 : normalizeVerifyAll retryMsg (some (.igApi m (some c) (some sc)))
      = m ++ " (code: " ++ toString c ++ ")" := by
    simp [normalizeVerifyAll, pyTruthy, pyFormatOptInt, hc]
  rw [hnorm, hnorm2]
  unfold exposes
  simp only [String.data_append, List.append_assoc]
  exact ⟨⟨"Account verification failed: ".data,
          " (code: ".data ++ (toString c).data ++ ", subcode: ".data ++ (toString sc).data
            ++ ")".data, by simp⟩,
         ⟨"Account verification failed: ".data ++ m.data ++ " (code: ".data,
          ", subcode: ".data ++ (toString sc).data ++ ")".data, by simp⟩,
         ⟨"Account verification failed: ".data ++ m.data ++ " (code: ".data
            ++ (toString c).data ++ ", subcode: ".data,
          ")".data, by simp⟩,
         ⟨m.data ++ " (code: ".data, ")".data, by simp⟩⟩

/-- Witness for **C6** at the scenario values `code = 190`,
`subcode = 460` with the original OAuth diagnostic text. -/
theorem verify_account_normalization_exposes_witness :
    (190:ℤ) ≠ 0 ∧
    (exposes "Invalid OAuth access token."
        (verifyAccountError "RetryError[<Future>]"
          (some (.igApi "Invalid OAuth access token." (some 190) (some 460)))) ∧
     exposes (toString (190:ℤ))
        (verifyAccountError "RetryError[<Future>]"
          (some (.igApi "Invalid OAuth access token." (some 190) (some 460)))) ∧
     exposes (toString (460:ℤ))
        (verifyAccountError "RetryError[<Future>]"
          (some (.igApi "Invalid OAuth access token." (some 190) (some 460)))) ∧
     exposes (toString (190:ℤ))
        (normalizeVerifyAll "RetryError[<Future>]"
          (some (.igApi "Invalid OAuth access token." (some 190) (some 460))))) :=
  ⟨by decide,
   verify_account_normalization_exposes "RetryError[<Future>]"
     "Invalid OAuth access token." 190 460 (by decide)⟩

/-! ### Helper lemmas for the proxy batch -/

theorem dictGet?_of_mem_keys {α : Type} (k : String) :
    ∀ l : List (String × α), k ∈ l.map Prod.fst → ∃ v, dictGet? k l = some v := by
  intro l
  induction l with
  | nil => simp
  | cons p rest ih =>
    intro hk
    by_cases hpk : p.1 = k
    · exact ⟨p.2, by simp [dictGet?, hpk]⟩
    · have hrest : k ∈ rest.map Prod.fst := by
        rcases List.mem_map.mp hk with ⟨q, hq, hqk⟩
        rcases List.mem_cons.mp hq with h | h
        · exact absurd (h ▸ hqk) hpk
        · exact List.mem_map.mpr ⟨q, h, hqk⟩
      rcases ih hrest with ⟨v, hv⟩
      exact ⟨v, by simpa [dictGet?, List.find?_cons, hpk] using hv⟩

theorem get_proxy_url_preserves_accounts (pm : ProxyManager) (account_id : String)
    (acc : ProxyAccount) (hacc : dictGet? account_id pm.accounts = some acc) :
    ∃ u pm', pm.get_proxy_url account_id = (.ok u, pm') ∧ pm'.accounts = pm.accounts := by
  by_cases hen : acc.proxy.enabled
  · cases hc : dictGet? account_id pm.proxy_cache with
    | some url =>
      exact ⟨some url, pm, by simp [ProxyManager.get_proxy_url, hacc, hen, hc], rfl⟩
    | none =>
      by_cases ht : strTruthy acc.proxy.proxy_url
      · exact ⟨acc.proxy.proxy_url,
          { pm with proxy_cache :=
              dictInsert account_id (acc.proxy.proxy_url.getD "") pm.proxy_cache },
          by simp [ProxyManager.get_proxy_url, hacc, hen, hc, ht], rfl⟩
      · exact ⟨acc.proxy.proxy_url, pm,
          by simp [ProxyManager.get_proxy_url, hacc, hen, hc, ht], rfl⟩
  · exact ⟨none, pm, by simp [ProxyManager.get_proxy_url, hacc, hen], rfl⟩

theorem verify_proxy_shape (pm : ProxyManager) (probe : String → ProbeResult)
    (account_id : String) (acc : ProxyAccount)
    (hacc : dictGet? account_id pm.accounts = some acc) :
    ∃ b pm' probed,
      pm.verify_proxy probe account_id = (.ok b, pm', probed) ∧
      pm'.accounts = pm.accounts ∧
      (∀ u ∈ probed, probe u ≠ .ok → b = false) := by
  rcases get_proxy_url_preserves_accounts pm account_id acc hacc with ⟨u, pm', hu, hpres⟩
  by_cases ht : strTruthy u
  · cases hp : probe (u.getD "") with
    | ok =>
      refine ⟨true, pm', [u.getD ""],
        by simp [ProxyManager.verify_proxy, hu, ht, hp], hpres, ?_⟩
      intro x hx hne
      rw [List.mem_singleton] at hx
      exact absurd (hx ▸ hp) hne
    | exn msg =>
      exact ⟨false, pm', [u.getD ""],
        by simp [ProxyManager.verify_proxy, hu, ht, hp], hpres, fun _ _ _ => rfl⟩
  · exact ⟨true, pm', [],
      by simp [ProxyManager.verify_proxy, hu, ht], hpres, by simp⟩

theorem verifyAllLoop_total (probe : String → ProbeResult) :
    ∀ (ids : List String) (pm : ProxyManager),
      (∀ i ∈ ids, i ∈ pm.accounts.map Prod.fst) →
      ∃ results pm'',
        verifyAllLoop probe pm ids = .ok (results, pm'') ∧
        results.map Prod.fst = ids := by
  intro ids
  induction ids with
  | nil => exact fun pm _ => ⟨[], pm, rfl, rfl⟩
  | cons i rest ih =>
    intro pm hmem
    rcases dictGet?_of_mem_keys i pm.accounts (hmem i (List.mem_cons_self i rest)) with
      ⟨acc, hacc⟩
    rcases verify_proxy_shape pm probe i acc hacc with ⟨b, pm', probed, hvp, hpres, _⟩
    have hmem' : ∀ j ∈ rest, j ∈ pm'.accounts.map Prod.fst := by
      intro j hj
      rw [hpres]
      exact hmem j (List.mem_cons_of_mem i hj)
    rcases ih pm' hmem' with ⟨results, pm'', hloop, hkeys⟩
    exact ⟨(i, b) :: results, pm'', by simp [verifyAllLoop, hvp, hloop], by simp [hkeys]⟩

/-- **C7**: `verify_proxy` for a registered account always completes with
a boolean — an exception raised during the probe is caught and reported as
`false`, never propagated — and `verify_all_proxies` completes for the
whole registry, producing one boolean per registered account key (in
order), never aborting the batch on an individual probe failure. -/
theorem verify_proxy_bool_and_batch_total (pm : ProxyManager)
    (probe : String → ProbeResult) (account_id : String)
    (hmem : account_id ∈ pm.accounts.map Prod.fst) :
    (∃ b pm' probed,
        pm.verify_proxy probe account_id = (.ok b, pm', probed) ∧
        (∀ u ∈ probed, probe u ≠ .ok → b = false)) ∧
    (∃ results pm'',
        pm.verify_all_proxies probe = .ok (results, pm'') ∧
        results.map Prod.fst = pm.accounts.map Prod.fst) := by
  constructor
  · rcases dictGet?_of_mem_keys account_id pm.accounts hmem with ⟨acc, hacc⟩
    rcases verify_proxy_shape pm probe account_id acc hacc with ⟨b, pm', probed, h1, _, h3⟩
    exact ⟨b, pm', probed, h1, h3⟩
  · rcases verifyAllLoop_total probe (pm.accounts.map Prod.fst) pm (fun _ h => h) with
      ⟨results, pm'', h1, h2⟩
    exact ⟨results, pm'', h1, h2⟩

/-- Witness for **C7** at a one-account registry whose enabled proxy probe
raises a timeout. -/
theorem verify_proxy_bool_and_batch_total_witness :
    "A" ∈ ((ProxyManager.mk [("A", ⟨"A", ⟨true, some "http://h:1"⟩⟩)] []).accounts.map
        Prod.fst) ∧
    ((∃ b pm' probed,
        (ProxyManager.mk [("A", ⟨"A", ⟨true, some "http://h:1"⟩⟩)] []).verify_proxy
            (fun _ => .exn "timeout") "A" = (.ok b, pm', probed) ∧
        (∀ u ∈ probed, (fun _ => ProbeResult.exn "timeout") u ≠ .ok → b = false)) ∧
     (∃ results pm'',
        (ProxyManager.mk [("A", ⟨"A", ⟨true, some "http://h:1"⟩⟩)] []).verify_all_proxies
            (fun _ => .exn "timeout") = .ok (results, pm'') ∧
        results.map Prod.fst
          = ((ProxyManager.mk [("A", ⟨"A", ⟨true, some "http://h:1"⟩⟩)] []).accounts.map
              Prod.fst))) :=
  ⟨by simp,
   verify_proxy_bool_and_batch_total
     (ProxyManager.mk [("A", ⟨"A", ⟨true, some "http://h:1"⟩⟩)] [])
     (fun _ => .exn "timeout") "A" (by simp)⟩

/-! ### Supporting development: the minute-window bound holds for
non-blocking call sequences

The refutation in the C1 theorem goes through the blocking branch's
fall-through at the exact expiry boundary.  The following shows the
violated invariant is otherwise sound: along any sequence of
*non-blocking* `acquire` calls with nondecreasing clock values, at most
`requests_per_minute` granted timestamps ever lie in any window
`[w, w + 60]`. -/

theorem hourlyGate_nonblocking_none (s : RateLimiter) (t : ℚ) :
    hourlyGate s false t = none ↔ s.hourly_requests.length < s.requests_per_hour := by
  unfold hourlyGate
  by_cases h : s.requests_per_hour ≤ s.hourly_requests.length
  · rw [if_pos h]
    cases hh : s.hourly_requests.head? <;> simp [not_lt.mpr h]
  · rw [if_neg h]
    simp [not_le.mp h]

theorem minuteGate_nonblocking_none (s : RateLimiter) (t : ℚ) :
    minuteGate s false t = none ↔ s.minute_requests.length < s.requests_per_minute := by
  unfold minuteGate
  by_cases h : s.requests_per_minute ≤ s.minute_requests.length
  · rw [if_pos h]
    cases hh : s.minute_requests.head? <;> simp [not_lt.mpr h]
  · rw [if_neg h]
    simp [not_le.mp h]

theorem hourlyGate_nonblocking_not_granted (s : RateLimiter) (t : ℚ) (out : AcquireOutcome)
    (h : hourlyGate s false t = some out) : out ≠ .granted ∧ out ≠ .deadlock := by
  unfold hourlyGate at h
  split at h
  · cases hh : s.hourly_requests.head? with
    | none =>
      rw [hh] at h
      simp only [Option.some.injEq] at h
      subst h
      exact ⟨by simp, by simp⟩
    | some h0 =>
      rw [hh] at h
      simp only [Bool.false_eq_true, if_false, Option.some.injEq] at h
      subst h
      exact ⟨by simp, by simp⟩
  · exact absurd h (by simp)

theorem minuteGate_nonblocking_not_granted (s : RateLimiter) (t : ℚ) (out : AcquireOutcome)
    (h : minuteGate s false t = some out) : out ≠ .granted ∧ out ≠ .deadlock := by
  unfold minuteGate at h
  split at h
  · cases hh : s.minute_requests.head? with
    | none =>
      rw [hh] at h
      simp only [Option.some.injEq] at h
      subst h
      exact ⟨by simp, by simp⟩
    | some m0 =>
      rw [hh] at h
      simp only [Bool.false_eq_true, if_false, Option.some.injEq] at h
      subst h
      exact ⟨by simp, by simp⟩
  · exact absurd h (by simp)

/-- Case analysis of one non-blocking `acquire` step: it never deadlocks;
it either grants — which requires the pruned minute window to be below
capacity, and appends the timestamp to both pruned windows — or leaves
the pruned state unchanged. -/
theorem acquire_nonblocking_cases (s : RateLimiter) (t : ℚ) :
    (s.acquire false t).1 ≠ .deadlock ∧
    (((s.acquire false t).1 = .granted ∧
        (cleanWindow t 60 s.minute_requests).length < s.requests_per_minute ∧
        (s.acquire false t).2
          = { requests_per_hour := s.requests_per_hour,
              requests_per_minute := s.requests_per_minute,
              hourly_requests := cleanWindow t 3600 s.hourly_requests ++ [t],
              minute_requests := cleanWindow t 60 s.minute_requests ++ [t] })
     ∨ ((s.acquire false t).1 ≠ .granted ∧ (s.acquire false t).2 = s.cleanOldRequests t)) := by
  cases hg : hourlyGate (s.cleanOldRequests t) false t with
  | some out =>
    rcases hourlyGate_nonblocking_not_granted _ _ _ hg with ⟨h1, h2⟩
    simp only [RateLimiter.acquire, hg]
    exact ⟨h2, Or.inr ⟨h1, trivial⟩⟩
  | none =>
    cases hm : minuteGate (s.cleanOldRequests t) false t with
    | some out =>
      rcases minuteGate_nonblocking_not_granted _ _ _ hm with ⟨h1, h2⟩
      simp only [RateLimiter.acquire, hg, hm]
      exact ⟨h2, Or.inr ⟨h1, trivial⟩⟩
    | none =>
      have hlen := (minuteGate_nonblocking_none _ _).mp hm
      simp only [RateLimiter.cleanOldRequests] at hlen
      simp only [RateLimiter.acquire, hg, hm]
      exact ⟨by simp, Or.inl ⟨trivial, hlen, by simp [RateLimiter.cleanOldRequests]⟩⟩

theorem grantedTimes_cons (out : AcquireOutcome) (t : ℚ) (outs : List (AcquireOutcome × ℚ)) :
    grantedTimes ((out, t) :: outs)
      = if out = .granted then t :: grantedTimes outs else grantedTimes outs := by
  unfold grantedTimes
  by_cases h : out = .granted <;> simp [h]

theorem runAcquires_cons_nondeadlock (s s' : RateLimiter) (wt : Bool) (t : ℚ)
    (out : AcquireOutcome) (rest : List (Bool × ℚ))
    (hstep : s.acquire wt t = (out, s')) (hnd : out ≠ .deadlock) :
    (s.runAcquires ((wt, t) :: rest)).1 = (out, t) :: (s'.runAcquires rest).1 := by
  rcases hrun : s'.runAcquires rest with ⟨outs, s''⟩
  unfold RateLimiter.runAcquires
  rw [hstep]
  cases out with
  | deadlock => exact absurd rfl hnd
  | granted => simp [hrun]
  | rateLimitError r => simp [hrun]
  | indexError => simp [hrun]

/-- Invariant induction: starting from a state whose minute window is the
pruning (at some clock value `tc`) of the sorted list `G` of previously
granted timestamps, a sorted sequence of non-blocking calls at times
`≥ tc` keeps every 60-second window's granted count at or below the
configured minute capacity. -/
theorem nonblocking_window_bound_aux :
    ∀ (times : List ℚ) (s : RateLimiter) (G : List ℚ) (tc : ℚ) (m : ℕ),
      s.requests_per_minute = m →
      s.minute_requests = cleanWindow tc 60 G →
      List.Sorted (· ≤ ·) G →
      (∀ g ∈ G, g ≤ tc) →
      List.Sorted (· ≤ ·) times →
      (∀ t ∈ times, tc ≤ t) →
      (∀ w : ℚ, (G.filter (inWindow w)).length ≤ m) →
      ∀ w : ℚ,
        ((G ++ grantedTimes (s.runAcquires (times.map (fun t => (false, t)))).1).filter
            (inWindow w)).length ≤ m := by
  intro times
  induction times with
  | nil =>
    intro s G tc m hm hmin hGs hGle hts htc hinv w
    simpa [RateLimiter.runAcquires, grantedTimes] using hinv w
  | cons t rest ih =>
    intro s G tc m hm hmin hGs hGle hts htc hinv w
    have htct : tc ≤ t := htc t (List.mem_cons_self _ _)
    have hrest_sorted : List.Sorted (· ≤ ·) rest := (List.sorted_cons.mp hts).2
    have hrest_ge : ∀ r ∈ rest, t ≤ r := (List.sorted_cons.mp hts).1
    rcases acquire_nonblocking_cases s t with ⟨hnd, hcase⟩
    rcases hstep : s.acquire false t with ⟨out, s'⟩
    rw [hstep] at hnd hcase
    simp only at hnd hcase
    have hconsrun := runAcquires_cons_nondeadlock s s' false t out
      (rest.map (fun r => (false, r))) hstep hnd
    rcases hcase with ⟨hout, hlt, hs'⟩ | ⟨hout, hs'⟩
    · -- granted: the timestamp is recorded in both windows
      subst hout
      have hmin' : s'.minute_requests = cleanWindow t 60 (G ++ [t]) := by
        rw [hs']
        simp only
        rw [hmin, cleanWindow_cleanWindow tc t 60 htct G hGs,
          cleanWindow_append_singleton t 60 (by norm_num) G]
      have hGs' : List.Sorted (· ≤ ·) (G ++ [t]) := by
        rw [List.Sorted, List.pairwise_append]
        refine ⟨hGs, List.pairwise_singleton _ _, ?_⟩
        intro a ha b hb
        rw [List.mem_singleton] at hb
        subst hb
        exact le_trans (hGle a ha) htct
      have hGle' : ∀ g ∈ G ++ [t], g ≤ t := by
        intro g hg
        rcases List.mem_append.mp hg with h | h
        · exact le_trans (hGle g h) htct
        · rw [List.mem_singleton] at h
          exact h.le
      have hlt' : (cleanWindow t 60 G).length < m := by
        rw [hmin, cleanWindow_cleanWindow tc t 60 htct G hGs] at hlt
        omega
      have hinv' : ∀ v : ℚ, ((G ++ [t]).filter (inWindow v)).length ≤ m := by
        intro v
        by_cases hv : inWindow v t
        · have hmono : (G.filter (inWindow v)).length ≤ (cleanWindow t 60 G).length := by
            rw [cleanWindow_eq_filter t 60 G hGs]
            apply length_filter_mono
            intro x _ hpx
            unfold inWindow at hpx hv
            simp only [decide_eq_true_eq] at hpx hv ⊢
            linarith [hpx.1, hpx.2, hv.1, hv.2]
          have : ((G ++ [t]).filter (inWindow v)).length
              = (G.filter (inWindow v)).length + 1 := by
            simp [List.filter_append, hv]
          omega
        · have : ((G ++ [t]).filter (inWindow v)).length
              = (G.filter (inWindow v)).length := by
            simp [List.filter_append, hv]
          rw [this]
          exact hinv v
      have hm' : s'.requests_per_minute = m := by rw [hs']; exact hm
      have := ih s' (G ++ [t]) t m hm' hmin' hGs' hGle' hrest_sorted hrest_ge hinv' w
      rw [List.map_cons, hconsrun, grantedTimes_cons, if_pos rfl]
      simpa using this
    · -- denied (or empty-deque error): the state is only pruned
      have hmin' : s'.minute_requests = cleanWindow t 60 G := by
        rw [hs']
        simp only [RateLimiter.cleanOldRequests]
        rw [hmin, cleanWindow_cleanWindow tc t 60 htct G hGs]
      have hGle' : ∀ g ∈ G, g ≤ t := fun g hg => le_trans (hGle g hg) htct
      have hm' : s'.requests_per_minute = m := by
        rw [hs']
        simpa [RateLimiter.cleanOldRequests] using hm
      have := ih s' G t m hm' hmin' hGs hGle' hrest_sorted hrest_ge hinv w
      rw [List.map_cons, hconsrun, grantedTimes_cons, if_neg hout]
      exact this

/-- Sharpening the C1 refutation: for sequences of *non-blocking*
`acquire` calls with nondecreasing clock values from a fresh limiter, no
60-second window `[w, w + 60]` ever contains more than
`requests_per_minute` granted timestamps; the C1 violation is specific to
the blocking branch's fall-through at the exact expiry boundary. -/
theorem nonblocking_minute_window_bound (H m : ℕ) (times : List ℚ)
    (hsorted : List.Sorted (· ≤ ·) times) (w : ℚ) :
    ((grantedTimes ((RateLimiter.init H m).runAcquires
        (times.map (fun t => (false, t)))).1).filter (inWindow w)).length ≤ m := by
  cases times with
  | nil => simp [RateLimiter.runAcquires, grantedTimes]
  | cons t0 rest =>
    have htc : ∀ t ∈ t0 :: rest, t0 ≤ t := by
      intro t ht
      rcases List.mem_cons.mp ht with h | h
      · exact h.ge
      · exact (List.sorted_cons.mp hsorted).1 t h
    have := nonblocking_window_bound_aux (t0 :: rest) (RateLimiter.init H m) [] t0 m
      rfl rfl (by simp) (by simp) hsorted htc (by simp) w
    simpa using this

end InstaGateway
